import Mathlib

/-!
Verification of the incremental line-of-code accounting cache of
`today.py` (class GitHubStatsGenerator).  The Python source is embedded
shallowly: each relevant method becomes a Lean definition over explicit
state (the ledger file is a list of text lines, the remote is a function
from repository name to a list of page responses), and the claims about
the specification are settled as theorems about those definitions.
-/

/-! ## Python string primitives used by the source -/

/-- Whitespace characters recognised by the Python `str.split()` with no
arguments (space, tab, newline, carriage return, vertical tab, form feed). -/
def pyIsSpace (c : Char) : Bool :=
  c = ' ' || c = '\t' || c = '\n' || c = '\r' || c = Char.ofNat 11 || c = Char.ofNat 12

/-- Helper for `pySplit`: walks the characters, accumulating the current
token in reverse. -/
def pySplitAux : List Char → List Char → List String
  | [], [] => []
  | [], acc => [String.mk acc.reverse]
  | c :: cs, acc =>
    if pyIsSpace c then
      match acc with
      | [] => pySplitAux cs []
      | _ :: _ => String.mk acc.reverse :: pySplitAux cs []
    else pySplitAux cs (c :: acc)

/-- Model of the Python `s.split()` (no arguments): split on runs of
whitespace, dropping empty tokens. -/
def pySplit (s : String) : List String := pySplitAux s.data []

/-- Helper for `pySplitOnChar`; accumulates the current field in reverse. -/
def pySplitOnCharAux (sep : Char) : List Char → List Char → List String
  | [], acc => [String.mk acc.reverse]
  | c :: cs, acc =>
    if c = sep then String.mk acc.reverse :: pySplitOnCharAux sep cs []
    else pySplitOnCharAux sep cs (c :: acc)

/-- Model of the Python `s.split(sep)` for a one-character separator:
splits at every occurrence, keeping empty fields (so the result for a
string with k separators has k+1 fields). -/
def pySplitOnChar (sep : Char) (s : String) : List String :=
  pySplitOnCharAux sep s.data []

/-- Digits of a decimal numeral, most significant first. -/
def pyDigitsVal : List Char → Nat → Option Nat
  | [], acc => some acc
  | c :: cs, acc =>
    if c.isDigit then pyDigitsVal cs (acc * 10 + (c.toNat - 48)) else none

/-- Model of the Python `int(s)` on the token shapes this program feeds it:
an optional sign followed by decimal digits.  Returns `none` where Python
raises ValueError. -/
def pyIntParse (s : String) : Option Int :=
  match s.data with
  | [] => none
  | '-' :: rest =>
    match rest with
    | [] => none
    | _ => (pyDigitsVal rest 0).map (fun n => -(n : Int))
  | l => (pyDigitsVal l 0).map (fun n => (n : Int))

/-- Helper for `readlines`: accumulates the current line in reverse; a
newline terminates a line and is kept at its end, a final line without a
newline is still returned. -/
def readlinesAux : List Char → List Char → List String
  | [], [] => []
  | [], acc => [String.mk acc.reverse]
  | c :: cs, acc =>
    if c = '\n' then String.mk (c :: acc).reverse :: readlinesAux cs []
    else readlinesAux cs (c :: acc)

/-- Model of the Python `f.readlines()` applied to a file holding the
string `s`: the list of lines, each keeping its trailing newline. -/
def readlines (s : String) : List String := readlinesAux s.data []

/-- Model of the Python `f.writelines(lines)` into a fresh file: the lines
are concatenated verbatim (writelines inserts nothing between them). -/
def writelines : List String → String
  | [] => String.mk []
  | l :: rest => l ++ writelines rest

/-- Helper for `lineGood`: true when the character list is a single line
ending in a newline, with no interior newline. -/
def lineGoodAux : List Char → Bool
  | [] => false
  | ['\n'] => true
  | c :: rest => if c = '\n' then false else lineGoodAux rest

/-- A well-formed stored line: nonempty, ends with a newline, and has no
interior newline.  Every line the program writes has this shape. -/
def lineGood (l : String) : Bool := lineGoodAux l.data

/-! ## SHA-256 (hashlib.sha256(...).hexdigest()), over Nat mod 2^32 -/

/-- 2^32, the modulus for 32-bit words. -/
def M32 : Nat := 4294967296

/-- Right rotation of a 32-bit word. -/
def rotr32 (n x : Nat) : Nat := (x >>> n) ||| ((x <<< (32 - n)) % M32)

/-- SHA-256 small sigma 0. -/
def shaS0 (x : Nat) : Nat := (rotr32 7 x) ^^^ (rotr32 18 x) ^^^ (x >>> 3)

/-- SHA-256 small sigma 1. -/
def shaS1 (x : Nat) : Nat := (rotr32 17 x) ^^^ (rotr32 19 x) ^^^ (x >>> 10)

/-- SHA-256 big sigma 0. -/
def shaB0 (x : Nat) : Nat := (rotr32 2 x) ^^^ (rotr32 13 x) ^^^ (rotr32 22 x)

/-- SHA-256 big sigma 1. -/
def shaB1 (x : Nat) : Nat := (rotr32 6 x) ^^^ (rotr32 11 x) ^^^ (rotr32 25 x)

/-- SHA-256 choice function; the complement is taken within 32 bits. -/
def shaCh (e f g : Nat) : Nat := (e &&& f) ^^^ ((e ^^^ (M32 - 1)) &&& g)

/-- SHA-256 majority function. -/
def shaMaj (a b c : Nat) : Nat := (a &&& b) ^^^ (a &&& c) ^^^ (b &&& c)

/-- The 64 SHA-256 round constants (FIPS 180-4), written in decimal. -/
def K256 : List Nat :=
  [1116352408, 1899447441, 3049323471, 3921009573, 961987163, 1508970993,
   2453635748, 2870763221, 3624381080, 310598401, 607225278, 1426881987,
   1925078388, 2162078206, 2614888103, 3248222580, 3835390401, 4022224774,
   264347078, 604807628, 770255983, 1249150122, 1555081692, 1996064986,
   2554220882, 2821834349, 2952996808, 3210313671, 3336571891, 3584528711,
   113926993, 338241895, 666307205, 773529912, 1294757372, 1396182291,
   1695183700, 1986661051, 2177026350, 2456956037, 2730485921, 2820302411,
   3259730800, 3345764771, 3516065817, 3600352804, 4094571909, 275423344,
   430227734, 506948616, 659060556, 883997877, 958139571, 1322822218,
   1537002063, 1747873779, 1955562222, 2024104815, 2227730452, 2361852424,
   2428436474, 2756734187, 3204031479, 3329325298]

/-- The eight SHA-256 initial hash words (FIPS 180-4), in decimal. -/
def H256init : List Nat :=
  [1779033703, 3144134277, 1013904242, 2773480762,
   1359893119, 2600822924, 528734635, 1541459225]

/-- UTF-8 encoding of one character, as the Python `str.encode("utf-8")`
produces byte by byte. -/
def utf8Bytes (c : Char) : List Nat :=
  let n := c.toNat
  if n < 0x80 then [n]
  else if n < 0x800 then
    [0xC0 ||| (n >>> 6), 0x80 ||| (n &&& 0x3F)]
  else if n < 0x10000 then
    [0xE0 ||| (n >>> 12), 0x80 ||| ((n >>> 6) &&& 0x3F), 0x80 ||| (n &&& 0x3F)]
  else
    [0xF0 ||| (n >>> 18), 0x80 ||| ((n >>> 12) &&& 0x3F), 0x80 ||| ((n >>> 6) &&& 0x3F),
     0x80 ||| (n &&& 0x3F)]

/-- Big-endian 32-bit words from a byte list (groups of four). -/
def bytesToWords : List Nat → List Nat
  | b0 :: b1 :: b2 :: b3 :: rest =>
    (((b0 * 256 + b1) * 256 + b2) * 256 + b3) :: bytesToWords rest
  | _ => []

/-- Extends the 16-word schedule to 64 words, `n` steps remaining. -/
def scheduleExtend : Nat → List Nat → List Nat
  | 0, w => w
  | n + 1, w =>
    let L := w.length
    let wi := (w.getD (L - 16) 0 + shaS0 (w.getD (L - 15) 0) +
               w.getD (L - 7) 0 + shaS1 (w.getD (L - 2) 0)) % M32
    scheduleExtend n (w ++ [wi])

/-- One SHA-256 round on the 8-word working state. -/
def compressRound (st : List Nat) (kw : Nat × Nat) : List Nat :=
  match st with
  | [a, b, c, d, e, f, g, h] =>
    let t1 := (h + shaB1 e + shaCh e f g + kw.1 + kw.2) % M32
    let t2 := (shaB0 a + shaMaj a b c) % M32
    [(t1 + t2) % M32, a, b, c, (d + t1) % M32, e, f, g]
  | other => other

/-- Processes one 64-byte chunk into the running hash state. -/
def compressChunk (h : List Nat) (chunk : List Nat) : List Nat :=
  let w := scheduleExtend 48 (bytesToWords chunk)
  let st := (K256.zip w).foldl compressRound h
  (h.zip st).map (fun p => (p.1 + p.2) % M32)

/-- SHA-256 padding: append 0x80, zero bytes to 56 mod 64, then the
original bit length as 8 big-endian bytes. -/
def padMessage (msg : List Nat) : List Nat :=
  let bitLen := msg.length * 8
  let k := (119 - msg.length % 64) % 64
  msg ++ [0x80] ++ List.replicate k 0 ++
    [(bitLen >>> 56) % 256, (bitLen >>> 48) % 256, (bitLen >>> 40) % 256, (bitLen >>> 32) % 256,
     (bitLen >>> 24) % 256, (bitLen >>> 16) % 256, (bitLen >>> 8) % 256, bitLen % 256]

/-- Splits a byte list into 64-byte chunks; the first argument is fuel
(the list length suffices). -/
def toChunksF : Nat → List Nat → List (List Nat)
  | 0, _ => []
  | _, [] => []
  | fuel + 1, l => l.take 64 :: toChunksF fuel (l.drop 64)

/-- Splits a byte list into 64-byte chunks. -/
def toChunks (l : List Nat) : List (List Nat) := toChunksF l.length l

/-- One hexadecimal digit, lower case, as hexdigest prints it. -/
def hexChar (n : Nat) : Char :=
  if n < 10 then Char.ofNat (48 + n) else Char.ofNat (87 + n)

/-- Two hexadecimal digits of one byte. -/
def byteHex (b : Nat) : List Char := [hexChar (b / 16), hexChar (b % 16)]

/-- Eight hexadecimal digits of one 32-bit word, big-endian. -/
def wordHex (w : Nat) : List Char :=
  byteHex ((w >>> 24) % 256) ++ byteHex ((w >>> 16) % 256) ++
  byteHex ((w >>> 8) % 256) ++ byteHex (w % 256)

/-- Model of `hashlib.sha256(s.encode("utf-8")).hexdigest()`. -/
def sha256hex (s : String) : String :=
  let msg := (s.data.map utf8Bytes).flatten
  let hs := (toChunks (padMessage msg)).foldl compressChunk H256init
  String.mk ((hs.map wordHex).flatten)

/-! ## Python values and the owner identity

`self.owner_id` is central to both the attribution loop (today.py line
189, `self.owner_id["id"]`) and the archive guard in `run`
(`self.owner_id == {"id": OWNER_ID}`), and `initialize()` stores there
the *whole pair* returned by `user_getter` — the tuple
`({"id": id}, user_data)` — not the id dict alone.  The relevant Python
values are therefore modelled explicitly.  Dictionaries and tuples are
encoded as cons chains; the dictionaries this program builds are
singletons, so entry order is immaterial. -/

/-- A Python value: a string, a dict (cons-encoded entry chain), or a
tuple (cons-encoded item chain). -/
inductive PyVal where
  | pyStr (s : String)
  | pyDictNil
  | pyDictCons (key : String) (val : PyVal) (rest : PyVal)
  | pyTupleNil
  | pyTupleCons (head : PyVal) (rest : PyVal)
deriving Repr, DecidableEq

/-- Python equality on these values: values of different types (a tuple
and a dict, for example) compare unequal rather than erroring. -/
def pyEq : PyVal → PyVal → Bool
  | .pyStr a, .pyStr b => a = b
  | .pyDictNil, .pyDictNil => true
  | .pyDictCons k v r, .pyDictCons k' v' r' => k = k' && pyEq v v' && pyEq r r'
  | .pyTupleNil, .pyTupleNil => true
  | .pyTupleCons h t, .pyTupleCons h' t' => pyEq h h' && pyEq t t'
  | _, _ => false

/-- A Python exception raised while evaluating a subscript. -/
inductive PyExc where
  | typeError
  | keyError
deriving Repr, DecidableEq

/-- The Python subscript `v["id"]`: on a dict, looks the key up
(KeyError when absent); on any non-dict value — in particular the
`(dict, user_info)` tuple `initialize()` stores in `self.owner_id` —
raises TypeError. -/
def pyDictGetId : PyVal → Except PyExc PyVal
  | .pyDictCons k v rest => if k = "id" then .ok v else pyDictGetId rest
  | .pyDictNil => .error .keyError
  | _ => .error .typeError

/-- `user_getter` returns the pair `({'id': id}, user_data)`. -/
def user_getter_value (id : String) (userData : PyVal) : PyVal :=
  .pyTupleCons (.pyDictCons "id" (.pyStr id) .pyDictNil) (.pyTupleCons userData .pyTupleNil)

/-- `initialize` stores the whole pair returned by `user_getter` in
`self.owner_id`. -/
def owner_id_value (id : String) (userData : PyVal) : PyVal :=
  user_getter_value id userData

/-- In `run`, the destructuring `OWNER_ID, user_info = user_data` makes
`OWNER_ID` the first tuple component: the dict holding the id. -/
def run_OWNER_ID (id : String) : PyVal :=
  .pyDictCons "id" (.pyStr id) .pyDictNil

/-! ## Data model of the cache subsystem

The ledger file is modelled at line granularity: a file is an
`Option (List String)` (`none` is an absent file, `some` the result of
`readlines`).  The remote commit-history provider is a function from the
repository full name to the list of page responses its successive
`recursive_loc` requests receive.  The repository digest function is a
parameter `H` of every definition; the source instantiates it with
`sha256hex` (hashlib.sha256 hexdigest), as the witnesses below do.  The
owner identity is carried as the `PyVal` held by `self.owner_id`. -/

/-- One commit node of a history page: the author user id
(`author.user` may be null, modelled by `none`), additions, deletions. -/
structure CommitNode where
  authorUserId : Option String
  additions : Nat
  deletions : Nat
deriving Repr, DecidableEq

/-- One page of commit history as `recursive_loc` consumes it: the
commit nodes of `history.edges` and `pageInfo.hasNextPage`.  The end
cursor is implicit: the model feeds the pages in request order. -/
structure HistoryPage where
  nodes : List CommitNode
  hasNextPage : Bool
deriving Repr, DecidableEq

/-- The remote response to one `recursive_loc` request. -/
inductive PageResp where
  /-- Status 200 with a non-null default branch: a history page. -/
  | page (h : HistoryPage)
  /-- Status 200 with `data.repository.defaultBranchRef` null. -/
  | noBranch
  /-- Status 200 whose payload raises TypeError while being read
  (for example `data.repository` itself null). -/
  | badShape
  /-- A non-success status code. -/
  | fail (status : Nat)
deriving Repr, DecidableEq

/-- One element of the `edges` list `cache_builder` receives from
`loc_query`: the repository full name and, when the default branch is
reachable, the remote total commit count
(`node.defaultBranchRef.target.history.totalCount`); a null
`defaultBranchRef` is `none`. -/
structure Edge where
  nameWithOwner : String
  defaultBranchRef : Option Nat
deriving Repr, DecidableEq

/-- Outcome of one `recursive_loc` run over the pages of one repository. -/
inductive LocOutcome where
  /-- Normal return `(addition_total, deletion_total, my_commits)`. -/
  | ok (additions deletions myCommits : Nat)
  /-- A TypeError escaped while reading a 200 payload (a malformed
  payload shape, or the owner-id subscript of the attribution loop);
  `cache_builder` catches it. -/
  | typeErr
  /-- A KeyError escaped from the attribution loop (a dict owner value
  without the key); nothing catches it. -/
  | keyErr
  /-- A non-success response: `force_close_file` has written `saved`
  (the comment block followed by the current records) and the exception
  carrying the status is raised. -/
  | fail (saved : List String) (status : Nat)
deriving Repr, DecidableEq

/-- An exception that aborts `cache_builder`. -/
inductive RunError where
  /-- The exception raised by `recursive_loc` on a non-success response,
  after the emergency save; `saved` is the file content written by
  `force_close_file`. -/
  | fetchFail (saved : List String) (status : Nat)
  /-- An uncaught ValueError, IndexError or KeyError (malformed record
  line, bad numeric field, bad repository name, index out of range,
  missing dict key). -/
  | pyError
deriving Repr, DecidableEq

/-- The value `cache_builder` returns together with the final file:
`[loc_add, loc_del, loc_add - loc_del, cached]` and the content written
by its final `writelines`. -/
structure BuildOk where
  loc_add : Int
  loc_del : Int
  net : Int
  cached : Bool
  file : List String
deriving Repr, DecidableEq

/-- The filler line used when creating a fresh comment header. -/
def commentLine : String :=
  "This line is a comment block. Write whatever you want here.\n"

/-- The zero-valued record written for a repository whose data cannot be
interpreted, and by `flush_cache` for every repository. -/
def zeroRecord (h : String) : String := h ++ " 0 0 0 0\n"

/-- The record line written after a successful history run:
hash, remote total count, owned commits, additions, deletions. -/
def recordLine (h : String) (totalCount myCommits additions deletions : Nat) : String :=
  h ++ " " ++ toString totalCount ++ " " ++ toString myCommits ++ " " ++
  toString additions ++ " " ++ toString deletions ++ "\n"

/-- The accumulation loop of `loc_counter_one_repo` (today.py lines
186-192), with the owner value exactly as the program stores it.  A
commit with null `author.user` short-circuits the test and is skipped.
Otherwise the program evaluates `self.owner_id["id"]`: for a dict owner
value the comparison runs and a match accumulates additions, deletions
and one owned commit; but `initialize()` stored the whole `user_getter`
pair (a tuple) in `self.owner_id`, so in the program this subscript
raises TypeError on the first commit with a non-null author. -/
def loc_fold (owner_id : PyVal) : List CommitNode → Nat → Nat → Nat →
    Except PyExc (Nat × Nat × Nat)
  | [], a, d, m => .ok (a, d, m)
  | n :: rest, a, d, m =>
    match n.authorUserId with
    | none => loc_fold owner_id rest a d m
    | some uid =>
      match pyDictGetId owner_id with
      | .error ex => .error ex
      | .ok ownval =>
        if pyEq (.pyStr uid) ownval then
          loc_fold owner_id rest (a + n.additions) (d + n.deletions) (m + 1)
        else loc_fold owner_id rest a d m

/-- `recursive_loc` together with the page handling of
`loc_counter_one_repo`: consumes the responses in request order.  A 200
response with a page runs the attribution loop — a TypeError or KeyError
it raises escapes here — then returns the totals if the page has no
edges or no next page, else recurses on the next response.  A 200
response with a null default branch returns zeros.  A non-success
response first writes the comment block and the current records
(`force_close_file`) and then raises. -/
def recursive_loc (owner_id : PyVal) (responses : List PageResp)
    (data cache_comment : List String) (a d m : Nat) : LocOutcome :=
  match responses with
  | [] => .fail (cache_comment ++ data) 0
  | .page h :: rest =>
    match loc_fold owner_id h.nodes a d m with
    | .error .typeError => .typeErr
    | .error .keyError => .keyErr
    | .ok t =>
      if h.nodes.isEmpty || !h.hasNextPage then .ok t.1 t.2.1 t.2.2
      else recursive_loc owner_id rest data cache_comment t.1 t.2.1 t.2.2
  | .noBranch :: _ => .ok 0 0 0
  | .badShape :: _ => .typeErr
  | .fail s :: _ => .fail (cache_comment ++ data) s

/-- The body of the per-repository loop of `cache_builder` for one index:
unpacks `repo_hash` and `commit_count` from the stored line (ValueError
when fewer than two fields), and when the hash matches the digest of the
enumerated name, compares the stored count with the remote total count.
Equal: nothing is written.  The remote count unreadable (null default
branch): TypeError, caught, a zero record is written.  Unequal: the name
is split on the slash (ValueError unless exactly two parts) and
`recursive_loc` runs once; on success the record is rewritten with the
new counts, on an escaped TypeError a zero record is written, on a
non-success response the failure aborts the run; an escaped KeyError is
not caught and aborts the run.  The second component counts the
`recursive_loc` invocations made for this repository (0 or 1). -/
def cache_step (H : String → String) (owner_id : PyVal)
    (remote : String → List PageResp) (cache_comment data : List String)
    (e : Edge) (line : String) : Except RunError (Option String × Nat) :=
  match pySplit line with
  | repo_hash :: commit_count :: _ =>
    if repo_hash = H e.nameWithOwner then
      match pyIntParse commit_count with
      | none => .error .pyError
      | some cc =>
        match e.defaultBranchRef with
        | none => .ok (some (zeroRecord repo_hash), 0)
        | some totalCount =>
          if cc = (totalCount : Int) then .ok (none, 0)
          else
            if (pySplitOnChar '/' e.nameWithOwner).length = 2 then
              match recursive_loc owner_id (remote e.nameWithOwner) data cache_comment 0 0 0 with
              | .ok a d m => .ok (some (recordLine repo_hash totalCount m a d), 1)
              | .typeErr => .ok (some (zeroRecord repo_hash), 1)
              | .keyErr => .error .pyError
              | .fail saved s => .error (.fetchFail saved s)
            else .error .pyError
    else .ok (none, 0)
  | _ => .error .pyError

/-- The in-place update `data[index] = newLine` of the loop body, or no
write at all when the iteration assigned nothing. -/
def setMaybe (data : List String) (index : Nat) : Option String → List String
  | some l => data.set index l
  | none => data

/-- The `for index in range(len(edges))` loop of `cache_builder`: runs
`cache_step` on each enumerated repository against the record at its
index, writing back in place.  Returns the final records and the list of
per-repository `recursive_loc` invocation counts. -/
def cache_loop (H : String → String) (owner_id : PyVal)
    (remote : String → List PageResp) (cache_comment : List String) :
    List Edge → Nat → List String → Except RunError (List String × List Nat)
  | [], _, data => .ok (data, [])
  | e :: rest, index, data =>
    if hlt : index < data.length then
      match cache_step H owner_id remote cache_comment data e (data.get ⟨index, hlt⟩) with
      | .error err => .error err
      | .ok (newLine, k) =>
        match cache_loop H owner_id remote cache_comment rest (index + 1)
            (setMaybe data index newLine) with
        | .error err => .error err
        | .ok (data', ks) => .ok (data', k :: ks)
    else .error .pyError

/-- The try/except FileNotFoundError block opening the cache: an absent
file is created holding `comment_size` filler comment lines (none when
`comment_size` is zero); an existing file is read as is. -/
def cache_init (comment_size : Nat) (file : Option (List String)) : List String :=
  match file with
  | some data => data
  | none => if 0 < comment_size then List.replicate comment_size commentLine else []

/-- `flush_cache`: re-reads at most `comment_size` lines of the existing
file as the preserved header (an absent file gets filler comment lines,
and a zero `comment_size` keeps no header), then writes the header
followed by one zero-valued record per enumerated repository. -/
def flush_cache (H : String → String) (edges : List Edge)
    (file : Option (List String)) (comment_size : Nat) : List String :=
  (match file with
   | some data => if 0 < comment_size then data.take comment_size else []
   | none => if 0 < comment_size then List.replicate comment_size commentLine else []) ++
  edges.map (fun e => zeroRecord (H e.nameWithOwner))

/-- The invalidation check of `cache_builder`: when the line count minus
the header size (a Python int, so possibly negative) differs from the
number of enumerated repositories, or a forced refresh was requested,
`cached` becomes false and the file is rebuilt by `flush_cache`. -/
def cache_rebuild (H : String → String) (edges : List Edge) (comment_size : Nat)
    (force_cache : Bool) (data : List String) : Bool × List String :=
  if ((data.length : Int) - (comment_size : Int) ≠ (edges.length : Int)) ∨ force_cache = true then
    (false, flush_cache H edges (some data) comment_size)
  else (true, data)

/-- The summation loop at the end of `cache_builder`: a line whose split
has at least five fields contributes its fourth field to `loc_add` and
its fifth to `loc_del`; shorter lines contribute nothing.  `none` models
an uncaught ValueError from `int()` on a non-numeric field. -/
def loc_sums : List String → Int → Int → Option (Int × Int)
  | [], a, d => some (a, d)
  | line :: rest, a, d =>
    match pySplit line with
    | _f0 :: _f1 :: _f2 :: f3 :: f4 :: _ =>
      match pyIntParse f3, pyIntParse f4 with
      | some x, some y => loc_sums rest (a + x) (d + y)
      | _, _ => none
    | _ => loc_sums rest a d

/-- `cache_builder`: opens (or creates) the ledger, rebuilds it when the
record count disagrees with the enumerated repository count or a refresh
is forced, splits off the comment header, reconciles each repository in
place, writes the header and records back once, and sums additions and
deletions over the final records.  `file0` is the ledger file before the
run; the `file` field of the result is its content after the final
write. -/
def cache_builder (H : String → String) (owner_id : PyVal) (edges : List Edge)
    (comment_size : Nat) (force_cache : Bool) (file0 : Option (List String))
    (remote : String → List PageResp) : Except RunError BuildOk :=
  let data0 := cache_init comment_size file0
  let rb := cache_rebuild H edges comment_size force_cache data0
  let cache_comment := rb.2.take comment_size
  let data2 := rb.2.drop comment_size
  match cache_loop H owner_id remote cache_comment edges 0 data2 with
  | .error err => .error err
  | .ok (data3, _ks) =>
    match loc_sums data3 0 0 with
    | none => .error .pyError
    | some (la, ld) => .ok ⟨la, ld, la - ld, rb.1, cache_comment ++ data3⟩

/-- The summation loop of `commit_counter`: a line whose split has at
least three fields contributes its third field to the total; shorter
lines contribute nothing.  `none` models an uncaught ValueError. -/
def commit_sums : List String → Int → Option Int
  | [], t => some t
  | line :: rest, t =>
    match pySplit line with
    | _p0 :: _p1 :: p2 :: _ =>
      match pyIntParse p2 with
      | some n => commit_sums rest (t + n)
      | none => none
    | _ => commit_sums rest t

/-- `commit_counter`: reads the ledger, removes the comment header, and
sums the owned-commit field of each sufficiently long record line; an
absent file yields zero. -/
def commit_counter (file : Option (List String)) (comment_size : Nat) : Option Int :=
  match file with
  | none => some 0
  | some data => commit_sums (data.drop comment_size) 0

/-! ## The archive-application check of run() -/

/-- The guard `self.owner_id == {'id': OWNER_ID}` in `run` deciding
whether `add_archive` is applied to the totals. -/
def archive_applied (id : String) (userData : PyVal) : Bool :=
  pyEq (owner_id_value id userData) (.pyDictCons "id" (run_OWNER_ID id) .pyDictNil)

/-! ## Concrete example values

Small closed instances used to evaluate the model on explicit inputs:
an owner id, a seven-line comment header, stored record lines keyed by
the sha256 digests the source computes, enumerated edges, and remote
history oracles. -/

/-- Example owner user id (the GraphQL node id string). -/
def exOwner : String := "OID"

/-- Example user profile payload returned by `user_getter`. -/
def exUserInfo : PyVal := .pyStr "info"

/-- The value `initialize()` actually stores in `self.owner_id`: the
whole `user_getter` pair for the example id. -/
def exOwnerVal : PyVal := owner_id_value exOwner exUserInfo

/-- Example seven-line comment header (the default header size). -/
def exHdr : List String := List.replicate 7 commentLine

/-- Stored record for repository u/A: remote count 5, 2 owned commits,
10 additions, 3 deletions. -/
def exLineA : String := recordLine (sha256hex "u/A") 5 2 10 3

/-- Stored record for repository u/B: remote count 5, 1 owned commit,
7 additions, 2 deletions. -/
def exLineB : String := recordLine (sha256hex "u/B") 5 1 7 2

/-- Stored record for repository u/C: remote count 3. -/
def exLineC : String := recordLine (sha256hex "u/C") 3 1 2 1

/-- Enumerated edge for u/A, remote still reporting 5 commits. -/
def exEdgeA : Edge := ⟨"u/A", some 5⟩

/-- Enumerated edge for u/A, remote now reporting 6 commits. -/
def exEdgeA6 : Edge := ⟨"u/A", some 6⟩

/-- Enumerated edge for u/B, remote now reporting 6 commits. -/
def exEdgeB : Edge := ⟨"u/B", some 6⟩

/-- Enumerated edge for u/B, remote now reporting 7 commits. -/
def exEdgeB7 : Edge := ⟨"u/B", some 7⟩

/-- Enumerated edge for u/C, remote still reporting 3 commits. -/
def exEdgeC : Edge := ⟨"u/C", some 3⟩

/-- Remote history oracle: one final page for u/A and u/B holding one
commit authored by the owner, with 20 additions and 4 deletions.  Read
with the owner value the program really stores, such a page raises
TypeError at the owner-id subscript. -/
def exRemote : String → List PageResp := fun nm =>
  if nm = "u/A" then [.page ⟨[⟨some exOwner, 20, 4⟩], false⟩]
  else if nm = "u/B" then [.page ⟨[⟨some exOwner, 20, 4⟩], false⟩]
  else []

/-- Remote history oracle: one final page for u/A and u/B holding one
commit with a null author, so the attribution loop completes (with zero
owned counts) even under the tuple owner value. -/
def exRemoteNull : String → List PageResp := fun nm =>
  if nm = "u/A" then [.page ⟨[⟨none, 1, 1⟩], false⟩]
  else if nm = "u/B" then [.page ⟨[⟨none, 1, 1⟩], false⟩]
  else []

/-- Remote history oracle whose u/B request receives a status 500
failure; u/A still answers with one final page of one null-author
commit. -/
def exRemoteFail : String → List PageResp := fun nm =>
  if nm = "u/A" then [.page ⟨[⟨none, 1, 1⟩], false⟩]
  else if nm = "u/B" then [.fail 500]
  else []

/-! ## Helper lemmas -/

/-- Characterisation of the attribution loop for a dict owner value
whose id entry is the string `ownid` — the shape the code intends but
never stores: starting from accumulators `(a, d, m)`, the loop adds the
additions, deletions and count of exactly the commits whose author user
id equals `ownid`. -/
theorem loc_fold_spec (owner_id : PyVal) (ownid : String)
    (hown : pyDictGetId owner_id = .ok (.pyStr ownid)) (nodes : List CommitNode) :
    ∀ a d m, loc_fold owner_id nodes a d m =
      .ok (a + ((nodes.filter fun n => n.authorUserId == some ownid).map
              CommitNode.additions).sum,
           d + ((nodes.filter fun n => n.authorUserId == some ownid).map
              CommitNode.deletions).sum,
           m + (nodes.filter fun n => n.authorUserId == some ownid).length) := by
  induction nodes with
  | nil => intro a d m; simp [loc_fold]
  | cons n rest ih =>
    intro a d m
    rcases h : n.authorUserId with _ | uid
    · have hb : (n.authorUserId == some ownid) = false := by simp [h]
      simp [loc_fold, h, ih, List.filter_cons, hb]
    · by_cases huid : uid = ownid
      · subst huid
        have hb : (n.authorUserId == some uid) = true := by simp [h]
        have hpe : pyEq (.pyStr uid) (.pyStr uid) = true := by simp [pyEq]
        simp [loc_fold, h, hown, hpe, ih, List.filter_cons, hb, Prod.mk.injEq]
        omega
      · have hb : (n.authorUserId == some ownid) = false := by simp [h, huid]
        have hpe : pyEq (.pyStr uid) (.pyStr ownid) = false := by simp [pyEq, huid]
        simp [loc_fold, h, huid, hown, hpe, ih, List.filter_cons, hb]

/-- The attribution loop under an owner value that is not a usable dict
(in the program, the `(dict, user_info)` tuple `initialize()` stored in
`self.owner_id`): commits with null authors are skipped unharmed, and
the first commit with a non-null author raises the subscript exception,
aborting the loop with nothing accumulated. -/
theorem loc_fold_no_dict (owner_id : PyVal) (ex : PyExc)
    (hown : pyDictGetId owner_id = .error ex) (nodes : List CommitNode) :
    ∀ a d m,
      ((∀ n ∈ nodes, n.authorUserId = none) →
        loc_fold owner_id nodes a d m = .ok (a, d, m))
      ∧ ((∃ n ∈ nodes, n.authorUserId ≠ none) →
        loc_fold owner_id nodes a d m = .error ex) := by
  induction nodes with
  | nil =>
    intro a d m
    exact ⟨fun _ => rfl, fun hex => absurd hex (by simp)⟩
  | cons n rest ih =>
    intro a d m
    rcases h : n.authorUserId with _ | uid
    · constructor
      · intro hall
        have hrest := (ih a d m).1 (fun x hx => hall x (by simp [hx]))
        simpa [loc_fold, h] using hrest
      · intro hex
        rcases hex with ⟨x, hx, hxne⟩
        rcases List.mem_cons.mp hx with rfl | hx'
        · exact absurd h hxne
        · have hrest := (ih a d m).2 ⟨x, hx', hxne⟩
          simpa [loc_fold, h] using hrest
    · constructor
      · intro hall
        have hn := hall n (by simp)
        rw [h] at hn
        exact absurd hn (by simp)
      · intro _
        simp [loc_fold, h, hown]

/-- On a non-success response, the file `recursive_loc` saves through
`force_close_file` is always the comment block followed by the record
list it was given: the in-memory ledger state at the moment of failure. -/
theorem recursive_loc_fail_saved (owner_id : PyVal) (responses : List PageResp) :
    ∀ data cache_comment a d m sv st,
      recursive_loc owner_id responses data cache_comment a d m = .fail sv st →
      sv = cache_comment ++ data := by
  induction responses with
  | nil =>
    intro data cc a d m sv st h
    simp only [recursive_loc, LocOutcome.fail.injEq] at h
    exact h.1.symm
  | cons r rest ih =>
    intro data cc a d m sv st h
    cases r with
    | page pg =>
      simp only [recursive_loc] at h
      rcases hf : loc_fold owner_id pg.nodes a d m with ex | t
      · rw [hf] at h
        cases ex <;> simp at h
      · rw [hf] at h
        dsimp only at h
        by_cases hc : (pg.nodes.isEmpty || !pg.hasNextPage) = true
        · rw [if_pos hc] at h; exact absurd h (by simp)
        · rw [if_neg hc] at h; exact ih _ _ _ _ _ _ _ h
    | noBranch => exact absurd h (by simp [recursive_loc])
    | badShape => exact absurd h (by simp [recursive_loc])
    | fail s =>
      simp only [recursive_loc, LocOutcome.fail.injEq] at h
      exact h.1.symm

/-- Frame property of the reconciliation loop: a successful pass over
`es` starting at `index` preserves the record-list length, produces one
invocation count per repository, and leaves every position below `index`
or at or beyond `index + es.length` untouched. -/
theorem cache_loop_ok_frame (H : String → String) (owner_id : PyVal)
    (remote : String → List PageResp) (cache_comment : List String) (es : List Edge) :
    ∀ index data data' ks,
      cache_loop H owner_id remote cache_comment es index data = .ok (data', ks) →
      data'.length = data.length ∧ ks.length = es.length ∧
        ∀ j, (j < index ∨ index + es.length ≤ j) → data'[j]? = data[j]? := by
  induction es with
  | nil =>
    intro i data d' ks h
    simp only [cache_loop, Except.ok.injEq, Prod.mk.injEq] at h
    obtain ⟨h1, h2⟩ := h
    subst h1; subst h2
    exact ⟨rfl, rfl, fun j _ => rfl⟩
  | cons e rest ih =>
    intro i data d' ks h
    simp only [cache_loop] at h
    split at h
    case isFalse hlt => exact absurd h (by simp)
    case isTrue hlt =>
    rcases hs : cache_step H owner_id remote cache_comment data e (data.get ⟨i, hlt⟩) with
      err | ⟨nl, k⟩
    · rw [hs] at h; exact absurd h (by simp)
    · rw [hs] at h
      dsimp only at h
      rcases hr : cache_loop H owner_id remote cache_comment rest (i + 1)
          (setMaybe data i nl) with err2 | ⟨d2, ks2⟩
      · rw [hr] at h; exact absurd h (by simp)
      · rw [hr] at h
        simp only [Except.ok.injEq, Prod.mk.injEq] at h
        obtain ⟨h1, h2⟩ := h
        subst h1; subst h2
        obtain ⟨ihl, ihk, ihf⟩ := ih _ _ _ _ hr
        have hmidlen : (setMaybe data i nl).length = data.length := by
          cases nl <;> simp [setMaybe]
        have hmidget : ∀ j, j ≠ i → (setMaybe data i nl)[j]? = data[j]? := by
          intro j hj
          cases nl with
          | none => rfl
          | some l => exact List.getElem?_set_ne (by omega)
        refine ⟨ihl.trans hmidlen, by simp [ihk], ?_⟩
        intro j hj
        simp only [List.length_cons] at hj
        have hji : j ≠ i := by omega
        have hd2 : d2[j]? = (setMaybe data i nl)[j]? := by
          apply ihf
          omega
        rw [hd2, hmidget j hji]

/-- Decomposition of the reconciliation loop: after a successful pass
over a prefix of the repositories, the loop over the whole list
continues from the resulting records at the next index, prepending the
prefix invocation counts. -/
theorem cache_loop_append (H : String → String) (owner_id : PyVal)
    (remote : String → List PageResp) (cache_comment : List String) (es1 : List Edge) :
    ∀ es2 index data data1 ks1,
      cache_loop H owner_id remote cache_comment es1 index data = .ok (data1, ks1) →
      cache_loop H owner_id remote cache_comment (es1 ++ es2) index data =
        match cache_loop H owner_id remote cache_comment es2 (index + es1.length) data1 with
        | .error err => .error err
        | .ok (data2, ks2) => .ok (data2, ks1 ++ ks2) := by
  induction es1 with
  | nil =>
    intro es2 i data d1 ks1 h
    simp only [cache_loop, Except.ok.injEq, Prod.mk.injEq] at h
    obtain ⟨h1, h2⟩ := h
    subst h1; subst h2
    simp only [List.nil_append, List.length_nil, Nat.add_zero]
    cases hcl : cache_loop H owner_id remote cache_comment es2 i data with
    | error err => simp
    | ok p => obtain ⟨d2, ks2⟩ := p; simp
  | cons e rest ih =>
    intro es2 i data d1 ks1 h
    simp only [cache_loop] at h
    split at h
    case isFalse hlt => exact absurd h (by simp)
    case isTrue hlt =>
    rcases hs : cache_step H owner_id remote cache_comment data e (data.get ⟨i, hlt⟩) with
      err | ⟨nl, k⟩
    · rw [hs] at h; exact absurd h (by simp)
    · rw [hs] at h
      dsimp only at h
      rcases hr : cache_loop H owner_id remote cache_comment rest (i + 1)
          (setMaybe data i nl) with err2 | ⟨d2, ks2⟩
      · rw [hr] at h; exact absurd h (by simp)
      · rw [hr] at h
        simp only [Except.ok.injEq, Prod.mk.injEq] at h
        obtain ⟨h1, h2⟩ := h
        subst h1; subst h2
        have goal1 : cache_loop H owner_id remote cache_comment ((e :: rest) ++ es2) i data =
            match cache_step H owner_id remote cache_comment data e (data.get ⟨i, hlt⟩) with
            | .error err => .error err
            | .ok (newLine, k') =>
              match cache_loop H owner_id remote cache_comment (rest ++ es2) (i + 1)
                  (setMaybe data i newLine) with
              | .error err => .error err
              | .ok (data', ks') => .ok (data', k' :: ks') := by
          simp only [List.cons_append, cache_loop, dif_pos hlt, List.append_eq]
        rw [goal1, hs]
        dsimp only
        rw [ih es2 (i + 1) (setMaybe data i nl) d2 ks2 hr]
        simp only [List.length_cons]
        rw [show i + (rest.length + 1) = i + 1 + rest.length from by omega]
        rcases hr2 : cache_loop H owner_id remote cache_comment es2 (i + 1 + rest.length) d2 with
          err3 | ⟨d3, ks3⟩ <;> simp

/-- The characters of a concatenation of two strings. -/
theorem append_data (a b : String) : (a ++ b).data = a.data ++ b.data := by
  cases a; cases b; rfl

/-- Reading the characters of one well-formed line followed by anything
yields that line and then the reading of the remainder. -/
theorem readlinesAux_good (l : List Char) :
    ∀ rest acc, lineGoodAux l = true →
      readlinesAux (l ++ rest) acc = String.mk (acc.reverse ++ l) :: readlinesAux rest [] := by
  induction l with
  | nil => intro rest acc h; exact absurd h (by simp [lineGoodAux])
  | cons c cs ih =>
    intro rest acc h
    by_cases hc : c = '\n'
    · subst hc
      cases cs with
      | nil => simp [readlinesAux]
      | cons c2 cs2 => simp [lineGoodAux] at h
    · have hcs : lineGoodAux cs = true := by
        cases cs with
        | nil => simp [lineGoodAux, hc] at h
        | cons c2 cs2 => simpa [lineGoodAux, hc] using h
      have hstep : readlinesAux ((c :: cs) ++ rest) acc = readlinesAux (cs ++ rest) (c :: acc) := by
        simp [readlinesAux, hc]
      rw [hstep, ih rest (c :: acc) hcs]
      simp

/-- Round trip for a list of well-formed lines: reading back the
concatenation written by `writelines` returns exactly those lines. -/
theorem readlines_writelines (lines : List String) :
    (∀ l ∈ lines, lineGood l = true) → readlines (writelines lines) = lines := by
  induction lines with
  | nil => intro _; rfl
  | cons l rest ih =>
    intro h
    have hl : lineGood l = true := h l (by simp)
    have hr : ∀ x ∈ rest, lineGood x = true := fun x hx => h x (by simp [hx])
    have hd : (writelines (l :: rest)).data = l.data ++ (writelines rest).data := by
      simp [writelines, append_data]
    unfold readlines
    rw [hd, readlinesAux_good l.data (writelines rest).data [] hl]
    have hmk : String.mk l.data = l := by cases l; rfl
    simp only [List.reverse_nil, List.nil_append, hmk]
    exact congrArg (l :: ·) (ih hr)

/-! ## Claim theorems -/

/-- C4 (code bug): the claimed attribution is what the spec intends but
not what the code does.  With the owner value the program actually
stores — `initialize()` put the whole `user_getter` pair, a tuple, in
`self.owner_id` — the subscript `self.owner_id["id"]` raises TypeError
on the first commit whose `author.user` is non-null, so the loop
accumulates nothing whenever the history has any authored commit
(conjunct 1); a history of only null-author commits is skipped without
error and without accumulation (conjunct 2); and the intended
count-exactly-M behaviour holds only for the id dict the code never
stores there (conjunct 3). -/
theorem claim_C4_attribution_type_error (id : String) (userData : PyVal)
    (nodes : List CommitNode) :
    ((∃ n ∈ nodes, n.authorUserId ≠ none) → ∀ a d m,
      loc_fold (owner_id_value id userData) nodes a d m = .error .typeError)
    ∧ ((∀ n ∈ nodes, n.authorUserId = none) → ∀ a d m,
      loc_fold (owner_id_value id userData) nodes a d m = .ok (a, d, m))
    ∧ loc_fold (run_OWNER_ID id) nodes 0 0 0 =
        .ok (((nodes.filter fun n => n.authorUserId == some id).map CommitNode.additions).sum,
             ((nodes.filter fun n => n.authorUserId == some id).map CommitNode.deletions).sum,
             (nodes.filter fun n => n.authorUserId == some id).length) := by
  have hown : pyDictGetId (owner_id_value id userData) = .error .typeError := rfl
  refine ⟨fun hex a d m => (loc_fold_no_dict _ _ hown nodes a d m).2 hex,
    fun hall a d m => (loc_fold_no_dict _ _ hown nodes a d m).1 hall, ?_⟩
  simpa using loc_fold_spec (run_OWNER_ID id) id rfl nodes 0 0 0

/-- C10: in the two summation loops, a line with fewer than five
whitespace-separated fields contributes nothing to the
additions/deletions totals, and a line with fewer than three fields
contributes nothing to the commit count; such lines are skipped rather
than causing an error. -/
theorem claim_C10_malformed_lines_skipped (line : String) (rest : List String) (a d t : Int) :
    ((pySplit line).length < 5 → loc_sums (line :: rest) a d = loc_sums rest a d)
    ∧ ((pySplit line).length < 3 → commit_sums (line :: rest) t = commit_sums rest t) := by
  constructor
  · intro h5
    simp only [loc_sums]
    rcases hs : pySplit line with _ | ⟨f0, _ | ⟨f1, _ | ⟨f2, _ | ⟨f3, _ | ⟨f4, tl⟩⟩⟩⟩⟩
    · rfl
    · rfl
    · rfl
    · rfl
    · rfl
    · exfalso; rw [hs] at h5; simp only [List.length_cons] at h5; omega
  · intro h3
    simp only [commit_sums]
    rcases hs : pySplit line with _ | ⟨f0, _ | ⟨f1, _ | ⟨f2, tl⟩⟩⟩
    · rfl
    · rfl
    · rfl
    · exfalso; rw [hs] at h3; simp only [List.length_cons] at h3; omega

/-- Witness for C10: the two-field line contributes to neither total. -/
theorem claim_C10_witness :
    ((pySplit "ab 1\n").length < 5
      ∧ loc_sums ["ab 1\n", "x 9 8 7 6\n"] 0 0 = loc_sums ["x 9 8 7 6\n"] 0 0)
    ∧ ((pySplit "ab 1\n").length < 3
      ∧ commit_sums ["ab 1\n", "x 9 8 7 6\n"] 0 = commit_sums ["x 9 8 7 6\n"] 0) :=
  ⟨⟨by decide, (claim_C10_malformed_lines_skipped "ab 1\n" ["x 9 8 7 6\n"] 0 0 0).1 (by decide)⟩,
   ⟨by decide, (claim_C10_malformed_lines_skipped "ab 1\n" ["x 9 8 7 6\n"] 0 0 0).2 (by decide)⟩⟩

/-- C6 (code bug): the guard in run() comparing self.owner_id with the
dict built around OWNER_ID is false for every identity, because
self.owner_id holds the whole pair returned by user_getter (a tuple)
while the right-hand side is a dict wrapping the id dict a second time;
so the archive contribution is never folded in, not even for the home
identity that the comment and the specification intend. -/
theorem claim_C6_archive_guard_never_true :
    ∀ (id : String) (userData : PyVal), archive_applied id userData = false := by
  intro id userData
  rfl

/-- C8: writing a ledger of newline-terminated lines (header followed by
records, full overwrite) and loading it back reproduces the same header
lines and record lines byte for byte. -/
theorem claim_C8_roundtrip (header records : List String) (comment_size : Nat)
    (hlen : header.length = comment_size)
    (hgood : ∀ l ∈ header ++ records, lineGood l = true) :
    readlines (writelines (header ++ records)) = header ++ records
    ∧ (readlines (writelines (header ++ records))).take comment_size = header
    ∧ (readlines (writelines (header ++ records))).drop comment_size = records := by
  have h := readlines_writelines (header ++ records) hgood
  refine ⟨h, ?_, ?_⟩
  · rw [h, ← hlen, List.take_left]
  · rw [h, ← hlen, List.drop_left]

/-- Witness for C8 at a concrete one-line header and one record. -/
theorem claim_C8_witness :
    (["# header\n"] : List String).length = 1
    ∧ (∀ l ∈ ["# header\n"] ++ ["abcd 5 2 10 3\n"], lineGood l = true)
    ∧ readlines (writelines (["# header\n"] ++ ["abcd 5 2 10 3\n"])) =
        ["# header\n"] ++ ["abcd 5 2 10 3\n"] :=
  ⟨rfl, by decide,
   (claim_C8_roundtrip ["# header\n"] ["abcd 5 2 10 3\n"] 1 rfl (by decide)).1⟩

/-- C2: whenever the ledger line count minus the header size differs
from the enumerated repository count, or a forced refresh is requested,
the rebuild fires before reconciliation: the preserved header is kept,
every record is replaced by a zero-valued record (one per enumerated
repository), and any successful run reports cached = false. -/
theorem claim_C2_size_change_rebuild (H : String → String) (edges : List Edge)
    (comment_size : Nat) (force_cache : Bool) (file0 : Option (List String))
    (hinv : ((cache_init comment_size file0).length : Int) - (comment_size : Int) ≠
        (edges.length : Int) ∨ force_cache = true) :
    cache_rebuild H edges comment_size force_cache (cache_init comment_size file0) =
      (false,
       (if 0 < comment_size then (cache_init comment_size file0).take comment_size else []) ++
         edges.map (fun e => zeroRecord (H e.nameWithOwner)))
    ∧ ∀ (owner_id : PyVal) (remote : String → List PageResp) (r : BuildOk),
        cache_builder H owner_id edges comment_size force_cache file0 remote = .ok r →
        r.cached = false := by
  have h1 : cache_rebuild H edges comment_size force_cache (cache_init comment_size file0) =
      (false, flush_cache H edges (some (cache_init comment_size file0)) comment_size) := by
    simp only [cache_rebuild, if_pos hinv]
  constructor
  · rw [h1]
    rfl
  · intro owner_id remote r hr
    simp only [cache_builder, h1] at hr
    split at hr
    · exact absurd hr (by simp)
    · split at hr
      · exact absurd hr (by simp)
      · simp only [Except.ok.injEq] at hr
        rw [← hr]

/-- Witness for C2: a fresh one-line-header ledger with no records and
one enumerated repository (count mismatch, no force) rebuilds to the
preserved header plus one zero record. -/
theorem claim_C2_witness :
    (((cache_init 1 none).length : Int) - (1 : Int) ≠
        ((([⟨"u/r", some 0⟩] : List Edge)).length : Int) ∨ (false : Bool) = true)
    ∧ cache_rebuild sha256hex [⟨"u/r", some 0⟩] 1 false (cache_init 1 none) =
        (false,
         (if 0 < 1 then (cache_init 1 none).take 1 else []) ++
           ([⟨"u/r", some 0⟩] : List Edge).map (fun e => zeroRecord (sha256hex e.nameWithOwner))) :=
  ⟨Or.inl (by decide),
   (claim_C2_size_change_rebuild sha256hex [⟨"u/r", some 0⟩] 1 false none
     (Or.inl (by decide))).1⟩

/-- C1: for a ledger position whose stored hash equals the digest of the
enumerated repository full name, with a readable stored count and an
observable remote total count: equal counts leave the record unchanged
with no history pagination; unequal counts run the paginator exactly
once and, on success, the processing of that repository overwrites only
that one record, with the newly accumulated counts. -/
theorem claim_C1_staleness_detection (H : String → String) (owner_id : PyVal)
    (remote : String → List PageResp) (cache_comment : List String)
    (e : Edge) (line repo_hash commit_count : String) (tail : List String)
    (n : Int) (totalCount : Nat)
    (hsplit : pySplit line = repo_hash :: commit_count :: tail)
    (hhash : repo_hash = H e.nameWithOwner)
    (hparse : pyIntParse commit_count = some n)
    (hbranch : e.defaultBranchRef = some totalCount) :
    (n = (totalCount : Int) → ∀ data,
      cache_step H owner_id remote cache_comment data e line = .ok (none, 0))
    ∧ (n ≠ (totalCount : Int) → (pySplitOnChar '/' e.nameWithOwner).length = 2 →
        ∀ data a d m,
          recursive_loc owner_id (remote e.nameWithOwner) data cache_comment 0 0 0 = .ok a d m →
          cache_step H owner_id remote cache_comment data e line =
            .ok (some (recordLine repo_hash totalCount m a d), 1))
    ∧ (n ≠ (totalCount : Int) → (pySplitOnChar '/' e.nameWithOwner).length = 2 →
        ∀ (i : Nat) (d0 : List String) (hi : i < d0.length), d0.get ⟨i, hi⟩ = line →
          ∀ a d m,
            recursive_loc owner_id (remote e.nameWithOwner) d0 cache_comment 0 0 0 = .ok a d m →
            cache_loop H owner_id remote cache_comment [e] i d0 =
              .ok (d0.set i (recordLine repo_hash totalCount m a d), [1])) := by
  have hstepEq : ∀ data, n ≠ (totalCount : Int) →
      (pySplitOnChar '/' e.nameWithOwner).length = 2 →
      ∀ a d m,
        recursive_loc owner_id (remote e.nameWithOwner) data cache_comment 0 0 0 = .ok a d m →
        cache_step H owner_id remote cache_comment data e line =
          .ok (some (recordLine repo_hash totalCount m a d), 1) := by
    intro data hne hslash a d m hrec
    simp only [cache_step, hsplit]
    rw [if_pos hhash, hparse]
    dsimp only
    rw [hbranch]
    dsimp only
    rw [if_neg hne, if_pos hslash, hrec]
  refine ⟨?_, fun hne hslash data => hstepEq data hne hslash, ?_⟩
  · intro heq data
    simp only [cache_step, hsplit]
    rw [if_pos hhash, hparse]
    dsimp only
    rw [hbranch]
    dsimp only
    rw [if_pos heq]
  · intro hne hslash i d0 hi hline a d m hrec
    simp only [cache_loop]
    rw [dif_pos hi, hline, hstepEq d0 hne hslash a d m hrec]
    rfl

/-- Witness for C1: the stored record of u/A holds count 5 while the
remote reports 6; the paginator runs once over one final page whose only
commit has a null author (so the attribution loop completes even under
the tuple owner value the program stores), and the record is rewritten
to the new remote count with the accumulated (zero) counts. -/
theorem claim_C1_witness :
    pySplit exLineA = sha256hex "u/A" :: "5" :: ["2", "10", "3"]
    ∧ pyIntParse "5" = some 5
    ∧ cache_loop sha256hex exOwnerVal exRemoteNull exHdr [exEdgeA6] 0 [exLineA] =
        .ok ([exLineA].set 0 (recordLine (sha256hex "u/A") 6 0 0 0), [1]) := by
  refine ⟨by decide, by decide, ?_⟩
  have h := (claim_C1_staleness_detection sha256hex exOwnerVal exRemoteNull exHdr exEdgeA6
      exLineA (sha256hex "u/A") "5" ["2", "10", "3"] 5 6
      (by decide) (by decide) (by decide) (by decide)).2.2
  exact h (by decide) (by decide) 0 [exLineA] (by decide) (by decide) 0 0 0 (by decide)

/-- C7: when the remote result shape for a stale repository cannot be
interpreted, the reconciler writes a fully-zeroed record and the run
continues, never propagating the anomaly as an error: a null default
branch in the enumeration (TypeError at the count comparison) yields the
zero record with no fetch and the loop moves on to the next repository;
a TypeError escaping the paginator of a stale repository (unexpected
null in a 200 payload) is caught and also yields the zero record. -/
theorem claim_C7_anomaly_zeroed (H : String → String) (owner_id : PyVal)
    (remote : String → List PageResp) (cache_comment : List String)
    (e : Edge) (line repo_hash commit_count : String) (tail : List String) (n : Int)
    (hsplit : pySplit line = repo_hash :: commit_count :: tail)
    (hhash : repo_hash = H e.nameWithOwner)
    (hparse : pyIntParse commit_count = some n) :
    (e.defaultBranchRef = none →
      (∀ data, cache_step H owner_id remote cache_comment data e line =
        .ok (some (zeroRecord repo_hash), 0))
      ∧ ∀ (rest : List Edge) (i : Nat) (d0 : List String) (hi : i < d0.length),
          d0.get ⟨i, hi⟩ = line →
          cache_loop H owner_id remote cache_comment (e :: rest) i d0 =
            match cache_loop H owner_id remote cache_comment rest (i + 1)
                (d0.set i (zeroRecord repo_hash)) with
            | .error err => .error err
            | .ok (d', ks) => .ok (d', 0 :: ks))
    ∧ (∀ totalCount, e.defaultBranchRef = some totalCount → n ≠ (totalCount : Int) →
        (pySplitOnChar '/' e.nameWithOwner).length = 2 →
        ∀ data,
          recursive_loc owner_id (remote e.nameWithOwner) data cache_comment 0 0 0 = .typeErr →
          cache_step H owner_id remote cache_comment data e line =
            .ok (some (zeroRecord repo_hash), 1)) := by
  constructor
  · intro hnone
    have hstep : ∀ data, cache_step H owner_id remote cache_comment data e line =
        .ok (some (zeroRecord repo_hash), 0) := by
      intro data
      simp only [cache_step, hsplit]
      rw [if_pos hhash, hparse]
      dsimp only
      rw [hnone]
    refine ⟨hstep, ?_⟩
    intro rest i d0 hi hline
    simp only [cache_loop]
    rw [dif_pos hi, hline, hstep d0]
    rfl
  · intro totalCount hbranch hne hslash data htyp
    simp only [cache_step, hsplit]
    rw [if_pos hhash, hparse]
    dsimp only
    rw [hbranch]
    dsimp only
    rw [if_neg hne, if_pos hslash, htyp]

/-- Witness for C7: u/C appears in the enumeration with a null default
branch; its record is zeroed with no fetch and the loop continues; and a
stale u/B whose paginator payload raises TypeError gets a zero record. -/
theorem claim_C7_witness :
    cache_step sha256hex exOwnerVal exRemote exHdr [exLineC] ⟨"u/C", none⟩ exLineC =
      .ok (some (zeroRecord (sha256hex "u/C")), 0)
    ∧ cache_step sha256hex exOwnerVal (fun _ => [.badShape]) exHdr [exLineB] exEdgeB exLineB =
      .ok (some (zeroRecord (sha256hex "u/B")), 1) := by
  constructor
  · exact ((claim_C7_anomaly_zeroed sha256hex exOwnerVal exRemote exHdr ⟨"u/C", none⟩
      exLineC (sha256hex "u/C") "3" ["1", "2", "1"] 3
      (by decide) (by decide) (by decide)).1 rfl).1 [exLineC]
  · exact (claim_C7_anomaly_zeroed sha256hex exOwnerVal (fun _ => [.badShape]) exHdr exEdgeB
      exLineB (sha256hex "u/B") "5" ["1", "7", "2"] 5
      (by decide) (by decide) (by decide)).2 6 rfl (by decide) (by decide) [exLineB] rfl

/-- C3: when, after the first `pre.length` repositories were reconciled
successfully, the fetch for the next repository receives a non-success
response, the whole run aborts with the failure status, and the file
written before the exception is the intact comment header followed by
the current in-memory records: the reconciled prefix records, with every
record from the failing position onward untouched. -/
theorem claim_C3_crash_save (H : String → String) (owner_id : PyVal)
    (remote : String → List PageResp) (d0 : List String) (comment_size : Nat)
    (pre : List Edge) (e : Edge) (post : List Edge)
    (d1 : List String) (ks1 : List Nat)
    (lineK repo_hash commit_count : String) (tail : List String) (n : Int) (totalCount : Nat)
    (sv : List String) (st : Nat)
    (hsize : (d0.length : Int) - (comment_size : Int) = ((pre ++ e :: post).length : Int))
    (hpre : cache_loop H owner_id remote (d0.take comment_size) pre 0 (d0.drop comment_size) =
      .ok (d1, ks1))
    (hKlt : pre.length < d1.length)
    (hgetK : d1.get ⟨pre.length, hKlt⟩ = lineK)
    (hsplit : pySplit lineK = repo_hash :: commit_count :: tail)
    (hhash : repo_hash = H e.nameWithOwner)
    (hparse : pyIntParse commit_count = some n)
    (hbranch : e.defaultBranchRef = some totalCount)
    (hne : n ≠ (totalCount : Int))
    (hslash : (pySplitOnChar '/' e.nameWithOwner).length = 2)
    (hfail : recursive_loc owner_id (remote e.nameWithOwner) d1 (d0.take comment_size) 0 0 0 =
      .fail sv st) :
    cache_builder H owner_id (pre ++ e :: post) comment_size false (some d0) remote =
      .error (.fetchFail (d0.take comment_size ++ d1) st)
    ∧ d1.length = (d0.drop comment_size).length
    ∧ ∀ j, pre.length ≤ j → d1[j]? = (d0.drop comment_size)[j]? := by
  have hsv : sv = d0.take comment_size ++ d1 :=
    recursive_loc_fail_saved owner_id (remote e.nameWithOwner) d1 (d0.take comment_size)
      0 0 0 sv st hfail
  have hstep : cache_step H owner_id remote (d0.take comment_size) d1 e lineK =
      .error (.fetchFail sv st) := by
    simp only [cache_step, hsplit]
    rw [if_pos hhash, hparse]
    dsimp only
    rw [hbranch]
    dsimp only
    rw [if_neg hne, if_pos hslash, hfail]
  have hloopfail : cache_loop H owner_id remote (d0.take comment_size) (e :: post)
      pre.length d1 = .error (.fetchFail sv st) := by
    simp only [cache_loop]
    rw [dif_pos hKlt, hgetK, hstep]
  have happ := cache_loop_append H owner_id remote (d0.take comment_size) pre (e :: post)
    0 (d0.drop comment_size) d1 ks1 hpre
  have hwhole : cache_loop H owner_id remote (d0.take comment_size) (pre ++ e :: post) 0
      (d0.drop comment_size) = .error (.fetchFail sv st) := by
    rw [happ, show 0 + pre.length = pre.length from by omega, hloopfail]
  obtain ⟨hlen, _, hframe⟩ := cache_loop_ok_frame H owner_id remote (d0.take comment_size)
    pre 0 (d0.drop comment_size) d1 ks1 hpre
  have hnorebuild : cache_rebuild H (pre ++ e :: post) comment_size false d0 = (true, d0) := by
    simp only [cache_rebuild]
    rw [if_neg]
    intro hc
    rcases hc with hc | hc
    · exact hc hsize
    · exact absurd hc (by simp)
  refine ⟨?_, hlen, fun j hj => hframe j (Or.inr (by omega))⟩
  simp only [cache_builder, cache_init, hnorebuild]
  rw [hwhole, hsv]

/-- Witness for C3: of three repositories, the first is reconciled (its
record rewritten to the fresh remote count, over a null-author page the
attribution loop completes on), the second fetch answers status 500; the
run aborts and the saved file is the header, the updated first record,
and the two untouched remaining records. -/
theorem claim_C3_witness :
    cache_loop sha256hex exOwnerVal exRemoteFail [commentLine] [exEdgeA6] 0
        [exLineA, exLineB, exLineC] =
      .ok ([recordLine (sha256hex "u/A") 6 0 0 0, exLineB, exLineC], [1])
    ∧ cache_builder sha256hex exOwnerVal [exEdgeA6, exEdgeB7, exEdgeC] 1 false
        (some [commentLine, exLineA, exLineB, exLineC]) exRemoteFail =
      .error (.fetchFail
        ([commentLine] ++ [recordLine (sha256hex "u/A") 6 0 0 0, exLineB, exLineC]) 500) := by
  refine ⟨by rfl, ?_⟩
  have h := claim_C3_crash_save sha256hex exOwnerVal exRemoteFail
    [commentLine, exLineA, exLineB, exLineC] 1 [exEdgeA6] exEdgeB7 [exEdgeC]
    [recordLine (sha256hex "u/A") 6 0 0 0, exLineB, exLineC] [1]
    exLineB (sha256hex "u/B") "5" ["1", "7", "2"] 5 7
    ([commentLine] ++ [recordLine (sha256hex "u/A") 6 0 0 0, exLineB, exLineC]) 500
    (by decide) (by rfl) (by decide) (by decide) (by decide) (by decide) (by decide)
    (by decide) (by decide) (by decide) (by decide)
  exact h.1

/-- Counterexample for C5: in the end-to-end example (seven-line header,
u/A stored count 5 and still 5 remotely, u/B stored count 5 and now 6
remotely, the owner value as the program stores it), the run neither
reports the cache-hit flag as false — the source computes `cached` from
the record-count comparison alone, which holds here, so the flag is
true — nor replaces u/B with the recomputed totals: the owner-id
subscript raises TypeError on the authored page and u/B is zeroed. -/
theorem claim_C5_counterexample :
    (cache_builder sha256hex exOwnerVal [exEdgeA, exEdgeB] 7 false
        (some (exHdr ++ [exLineA, exLineB])) exRemote).map BuildOk.cached ≠ .ok false
    ∧ (cache_builder sha256hex exOwnerVal [exEdgeA, exEdgeB] 7 false
        (some (exHdr ++ [exLineA, exLineB])) exRemote).map BuildOk.file ≠
      .ok (exHdr ++ [exLineA, recordLine (sha256hex "u/B") 6 1 20 4]) := by
  constructor
  · intro h
    have hrun : (cache_builder sha256hex exOwnerVal [exEdgeA, exEdgeB] 7 false
        (some (exHdr ++ [exLineA, exLineB])) exRemote).map BuildOk.cached = .ok true := by rfl
    rw [hrun] at h
    simp at h
  · intro h
    have hrun : (cache_builder sha256hex exOwnerVal [exEdgeA, exEdgeB] 7 false
        (some (exHdr ++ [exLineA, exLineB])) exRemote).map BuildOk.file =
        .ok (exHdr ++ [exLineA, zeroRecord (sha256hex "u/B")]) := by rfl
    rw [hrun] at h
    simp only [Except.ok.injEq] at h
    exact absurd h (by decide)

/-- C5 as amended: in the end-to-end example, u/A keeps its record byte
for byte and the reported cache-hit flag is true, because the source
derives it from record-count equality only; u/B is overwritten once, but
— the owner-id subscript raising TypeError on its authored page — with
the fully zeroed record rather than recomputed totals, so the final LOC
totals are u/A stored values alone: 10 added, 3 deleted, net 7. -/
theorem claim_C5_end_to_end :
    cache_builder sha256hex exOwnerVal [exEdgeA, exEdgeB] 7 false
        (some (exHdr ++ [exLineA, exLineB])) exRemote =
      .ok ⟨10, 3, 7, true, exHdr ++ [exLineA, zeroRecord (sha256hex "u/B")]⟩ := by
  rfl

/-- Counterexample for C9: with a one-line header size, a pre-existing
empty ledger file and an empty enumeration, the run completes without a
fetch failure, yet the persisted file is empty: it does not consist of
one header line followed by the records. -/
theorem claim_C9_counterexample :
    cache_builder sha256hex exOwnerVal [] 1 false (some []) exRemote = .ok ⟨0, 0, 0, false, []⟩
    ∧ ¬ ∃ hdr recs, ([] : List String) = hdr ++ recs ∧ hdr.length = 1 ∧
        recs.length = ([] : List Edge).length := by
  constructor
  · rfl
  · rintro ⟨hdr, recs, h1, h2, h3⟩
    have := congrArg List.length h1
    simp at this
    omega

/-- C9 as amended: after every reconciliation run that completes without
a fetch failure, started on an absent ledger file or on one holding at
least `comment_size` lines, the persisted ledger consists of exactly
`comment_size` header lines followed by exactly one record line per
enumerated repository. -/
theorem claim_C9_ledger_shape (H : String → String) (owner_id : PyVal)
    (remote : String → List PageResp) (edges : List Edge) (comment_size : Nat)
    (force_cache : Bool) (file0 : Option (List String)) (r : BuildOk)
    (hwf : ∀ dd, file0 = some dd → comment_size ≤ dd.length)
    (hok : cache_builder H owner_id edges comment_size force_cache file0 remote = .ok r) :
    ∃ hdr recs, r.file = hdr ++ recs ∧ hdr.length = comment_size ∧
      recs.length = edges.length := by
  have h0 : comment_size ≤ (cache_init comment_size file0).length := by
    cases file0 with
    | some dd => simpa [cache_init] using hwf dd rfl
    | none =>
      rcases Nat.eq_zero_or_pos comment_size with hz | hp
      · simp [cache_init, hz]
      · simp [cache_init, hp]
  have hlen2 : (cache_rebuild H edges comment_size force_cache
      (cache_init comment_size file0)).2.length = comment_size + edges.length := by
    simp only [cache_rebuild]
    split
    case isTrue hcond =>
      simp only [flush_cache, List.length_append, List.length_map]
      rcases Nat.eq_zero_or_pos comment_size with hz | hp
      · simp [hz]
      · simp only [if_pos hp, List.length_take]
        omega
    case isFalse hcond =>
      push_neg at hcond
      obtain ⟨heq, _⟩ := hcond
      simp only
      omega
  simp only [cache_builder] at hok
  split at hok
  · exact absurd hok (by simp)
  case _ d3 ks hloop =>
    split at hok
    · exact absurd hok (by simp)
    case _ la ld hsums =>
      simp only [Except.ok.injEq] at hok
      obtain ⟨hd3len, _, _⟩ := cache_loop_ok_frame H owner_id remote _ edges 0 _ d3 ks hloop
      refine ⟨(cache_rebuild H edges comment_size force_cache
        (cache_init comment_size file0)).2.take comment_size, d3, ?_, ?_, ?_⟩
      · rw [← hok]
      · simp only [List.length_take]
        omega
      · rw [hd3len]
        simp only [List.length_drop]
        omega

/-- Witness for C9: a well-formed ledger (one header line, one record)
with one enumerated, unchanged repository; the run completes and the
persisted file is the one header line plus one record line. -/
theorem claim_C9_witness :
    cache_builder sha256hex exOwnerVal [exEdgeA] 1 false (some [commentLine, exLineA]) exRemote =
      .ok ⟨10, 3, 7, true, [commentLine, exLineA]⟩
    ∧ ∃ hdr recs,
        (BuildOk.mk 10 3 7 true [commentLine, exLineA]).file = hdr ++ recs ∧
        hdr.length = 1 ∧ recs.length = ([exEdgeA] : List Edge).length := by
  have hrun : cache_builder sha256hex exOwnerVal [exEdgeA] 1 false
      (some [commentLine, exLineA]) exRemote = .ok ⟨10, 3, 7, true, [commentLine, exLineA]⟩ := by
    rfl
  refine ⟨hrun, ?_⟩
  exact claim_C9_ledger_shape sha256hex exOwnerVal exRemote [exEdgeA] 1 false
    (some [commentLine, exLineA]) ⟨10, 3, 7, true, [commentLine, exLineA]⟩
    (by intro dd hdd; cases hdd; decide) hrun
